import Mathlib

/-!
Shallow embedding of `main.py`, an election-results scraper that extracts a
municipality listing, per-municipality detail records, and exports a flat CSV
table.  External effects (HTTP fetch, HTML parsing, file writing) are modelled
as data supplied through an environment; the extraction and flattening logic is
translated function by function from the source.
-/

set_option maxHeartbeats 1000000

namespace Volby

/-! ### Constants from the source -/

def NON_BREAKING_SPACE : Char := Char.ofNat 160
def REGULAR_SPACE : Char := ' '
def INVALID_PARTY_NAME : String := "-"

def HEADER_ROW_INDEX : Nat := 1
def MIN_CELLS_PER_ROW : Nat := 3

def CODE_COLUMN : String := "code"
def LOCATION_COLUMN : String := "location"
def REGISTERED_COLUMN : String := "registered"
def ENVELOPES_COLUMN : String := "envelopes"
def VALID_COLUMN : String := "valid"

def DEFAULT_VOTES : Int := 0
def DEFAULT_VALUE : String := "N/A"

/-! ### Python `int()` on strings

`int(s)` strips surrounding whitespace, accepts one optional sign, and then a
nonempty run of decimal digits in which underscores may appear only between
digits.  It raises `ValueError` otherwise; we model that with `Option`. -/

def pyStripChars (cs : List Char) : List Char :=
  ((cs.dropWhile Char.isWhitespace).reverse.dropWhile Char.isWhitespace).reverse

/-- Accepts the tail of a digit group: digits, with each underscore followed by
a digit. -/
def pyDigitsTail : List Char → Bool
  | [] => true
  | '_' :: [] => false
  | '_' :: c :: cs => c.isDigit && pyDigitsTail cs
  | c :: cs => c.isDigit && pyDigitsTail cs

/-- Accepts a nonempty digit group (underscores only between digits). -/
def pyDigits : List Char → Bool
  | [] => false
  | c :: cs => c.isDigit && pyDigitsTail cs

/-- Numeric value of a digit group, ignoring underscores. -/
def digitsVal (cs : List Char) : Nat :=
  (cs.filter (fun c => c ≠ '_')).foldl (fun a c => 10 * a + (c.toNat - 48)) 0

/-- Model of Python `int(s)` for base-10 string input. -/
def pyInt? (s : String) : Option Int :=
  match pyStripChars s.toList with
  | '+' :: rest => if pyDigits rest then some (digitsVal rest : Int) else none
  | '-' :: rest => if pyDigits rest then some (-(digitsVal rest : Int)) else none
  | rest => if pyDigits rest then some (digitsVal rest : Int) else none

/-! ### `clean_number` -/

/-- `text.replace(NON_BREAKING_SPACE, '').replace(REGULAR_SPACE, '')`. -/
def removeSpaces (s : String) : String :=
  String.mk (s.toList.filter (fun c => c ≠ NON_BREAKING_SPACE ∧ c ≠ REGULAR_SPACE))

/-- `clean_number`: returns 0 for empty input, otherwise removes ordinary and
non-breaking spaces and converts with `int()`, returning 0 if that raises. -/
def clean_number (text : String) : Int :=
  if text = "" then DEFAULT_VOTES
  else
    match pyInt? (removeSpaces text) with
    | some number => number
    | none => DEFAULT_VOTES

/-! ### Python `dict` as an association list

Insertion keeps first-insertion order; inserting an existing key overwrites in
place; lookup finds the unique binding of a key. -/

def dictInsert {β : Type} (k : String) (v : β) : List (String × β) → List (String × β)
  | [] => [(k, v)]
  | (k', v') :: rest => if k' = k then (k, v) :: rest else (k', v') :: dictInsert k v rest

def dictFind? {β : Type} (k : String) : List (String × β) → Option β
  | [] => none
  | (k', v) :: rest => if k' = k then some v else dictFind? k rest

/-! ### Data model -/

/-- A party entry: `{'nazev': name, 'hlasy': votes}`. -/
structure PartyInfo where
  nazev : String
  hlasy : Int
deriving Repr, DecidableEq

abbrev PartyDict := List (String × PartyInfo)

/-- A municipality record (Python dict).  `Option` models key presence: stubs
from the listing have only `code`, `location`, `link`; `update` with a detail
record adds the rest. -/
structure Municipality where
  code : Option String := none
  location : Option String := none
  link : Option String := none
  registered : Option Int := none
  envelopes : Option Int := none
  valid : Option Int := none
  parties : Option PartyDict := none
deriving Repr, DecidableEq

/-- A heterogeneous CSV cell (Python values are strings or ints). -/
inductive Cell where
  | str (s : String)
  | int (n : Int)
deriving Repr, DecidableEq

/-! ### Listing page model and `scrape_municipalities_list` -/

/-- The element found by `td.cislo a`: its `href` attribute (possibly absent)
and its stripped text (the municipality code). -/
structure LinkElem where
  href : Option String
  text : String
deriving Repr, DecidableEq

/-- One `tr` of the main table: the code/link element and the stripped text of
the name element, each possibly absent. -/
structure LRow where
  linkElem : Option LinkElem
  nameElem : Option String
deriving Repr, DecidableEq

/-- `scrape_municipalities_list`: for each table row, keep it only when both
elements exist and href, code and name are all non-empty; resolve the href
against the base URL with `join` (model of `urljoin`). -/
def scrape_municipalities_list (join : String → String → String)
    (page : List LRow) (base_url : String) : List Municipality :=
  page.foldl (fun municipalities row =>
    match row.linkElem, row.nameElem with
    | some link_element, some name =>
      match link_element.href with
      | some href =>
        if href ≠ "" ∧ link_element.text ≠ "" ∧ name ≠ "" then
          municipalities ++
            [{ code := some link_element.text, location := some name,
               link := some (join base_url href) }]
        else municipalities
      | none => municipalities
    | _, _ => municipalities) []

/-! ### Detail page model and `scrape_one_place_details` -/

/-- A parsed detail document: the stripped texts of the three summary cells
(absent when the selector finds nothing), and for each `div.t2_470` container
the result of `find('table')`: `none`, or the list of its `tr` rows, each row
being the stripped texts of its `td` cells. -/
structure DetailDoc where
  registered_el : Option String
  envelopes_el : Option String
  valid_el : Option String
  containers : List (Option (List (List String)))
deriving Repr, DecidableEq

/-- The record built by `scrape_one_place_details` for a present document. -/
structure ElectionData where
  registered : Int
  envelopes : Int
  valid : Int
  parties : PartyDict
deriving Repr, DecidableEq

/-- Processing of one party-table row: rows with at least `MIN_CELLS_PER_ROW`
cells qualify; a qualifying row is inserted keyed by party number unless its
name is empty or the invalid sentinel. -/
def add_party_row (d : PartyDict) (cells : List String) : PartyDict :=
  match cells with
  | party_number :: party_name :: votes_text :: _ =>
    if party_name ≠ "" ∧ party_name ≠ INVALID_PARTY_NAME then
      dictInsert party_number { nazev := party_name, hlasy := clean_number votes_text } d
    else d
  | _ => d

/-- Processing of one `div.t2_470` container: skip when `find('table')` finds
nothing, otherwise fold over the rows after the header row. -/
def add_table (d : PartyDict) (table : Option (List (List String))) : PartyDict :=
  match table with
  | none => d
  | some rows => (rows.drop HEADER_ROW_INDEX).foldl add_party_row d

/-- The parties mapping accumulated over all result-table containers. -/
def scrape_parties (doc : DetailDoc) : PartyDict :=
  doc.containers.foldl add_table []

/-- The record returned by `scrape_one_place_details` on a present document. -/
def detailOf (doc : DetailDoc) : ElectionData :=
  { registered := match doc.registered_el with
      | some t => clean_number t
      | none => DEFAULT_VOTES
    envelopes := match doc.envelopes_el with
      | some t => clean_number t
      | none => DEFAULT_VOTES
    valid := match doc.valid_el with
      | some t => clean_number t
      | none => DEFAULT_VOTES
    parties := scrape_parties doc }

/-- `scrape_one_place_details`: `None` for an absent document, otherwise the
summary fields (0 when a selector finds nothing) plus the parties mapping. -/
def scrape_one_place_details (detail_soup : Option DetailDoc) : Option ElectionData :=
  match detail_soup with
  | none => none
  | some doc => some (detailOf doc)

/-! ### `export_to_csv` -/

/-- Step 1, one municipality: walk its parties dict (when the key is present
and the dict non-empty) and record each party number's name on first sight. -/
def add_municipality_parties (all_parties : List (String × String))
    (municipality : Municipality) : List (String × String) :=
  match municipality.parties with
  | none => all_parties
  | some ps =>
    if ps = [] then all_parties
    else
      ps.foldl (fun acc kv =>
        if (dictFind? kv.1 acc).isSome then acc else acc ++ [(kv.1, kv.2.nazev)]) all_parties

/-- Step 1: the global party-number → party-name dict, in first-sight order. -/
def collect_all_parties (municipalities_data : List Municipality) : List (String × String) :=
  municipalities_data.foldl add_municipality_parties []

/-- Python string `<`: lexicographic comparison of the code-point
sequences. -/
def strLt : List Char → List Char → Bool
  | [], [] => false
  | [], _ :: _ => true
  | _ :: _, [] => false
  | a :: as, b :: bs => if a = b then strLt as bs else decide (a < b)

/-- Python string `<` on `String`. -/
def pyStrLt (a b : String) : Bool := strLt a.toList b.toList

/-- Python tuple order on `(int(id), (id, name))` sort keys: compare the
integers, then the id strings, then the names. -/
def tupLE (a b : Int × String × String) : Prop :=
  a.1 < b.1 ∨ (a.1 = b.1 ∧
    (pyStrLt a.2.1 b.2.1 ∨ (a.2.1 = b.2.1 ∧ (pyStrLt a.2.2 b.2.2 ∨ a.2.2 = b.2.2))))

instance : DecidableRel tupLE := fun a b => by
  unfold tupLE; infer_instance

/-- Step 2 key building: `(int(party_number_text), (party_number_text, name))`
for every collected party; `int()` raising on any id aborts the whole export
(modelled as `none`). -/
def buildKeyed : List (String × String) → Option (List (Int × String × String))
  | [] => some []
  | (party_number_text, party_name) :: rest =>
    match pyInt? party_number_text, buildKeyed rest with
    | some n, some l => some ((n, party_number_text, party_name) :: l)
    | _, _ => none

/-- Step 2: sort the collected `(id, name)` pairs by `(int(id), (id, name))`;
`Except.error` models the uncaught `ValueError` from `int()`. -/
def sorted_parties? (all_parties : List (String × String)) :
    Except Unit (List (String × String)) :=
  match buildKeyed all_parties with
  | none => Except.error ()
  | some temp_list_to_sort =>
    Except.ok (((temp_list_to_sort.insertionSort tupLE).map (fun t => t.2)))

def base_columns : List String :=
  [CODE_COLUMN, LOCATION_COLUMN, REGISTERED_COLUMN, ENVELOPES_COLUMN, VALID_COLUMN]

/-- `municipality.get(column, DEFAULT_VALUE)` for the five base columns. -/
def municipalityGet (m : Municipality) (c : String) : Cell :=
  if c = CODE_COLUMN then
    match m.code with | some s => Cell.str s | none => Cell.str DEFAULT_VALUE
  else if c = LOCATION_COLUMN then
    match m.location with | some s => Cell.str s | none => Cell.str DEFAULT_VALUE
  else if c = REGISTERED_COLUMN then
    match m.registered with | some n => Cell.int n | none => Cell.str DEFAULT_VALUE
  else if c = ENVELOPES_COLUMN then
    match m.envelopes with | some n => Cell.int n | none => Cell.str DEFAULT_VALUE
  else if c = VALID_COLUMN then
    match m.valid with | some n => Cell.int n | none => Cell.str DEFAULT_VALUE
  else Cell.str DEFAULT_VALUE

/-- The vote count used for a party cell: the record's count when the parties
key is present, the dict non-empty and the party number is a key, else 0. -/
def party_votes (municipality : Municipality) (party_number : String) : Int :=
  match municipality.parties with
  | none => DEFAULT_VOTES
  | some ps =>
    if ps = [] then DEFAULT_VOTES
    else
      match dictFind? party_number ps with
      | some info => info.hlasy
      | none => DEFAULT_VOTES

/-- Step 3, one record: the row dict, base columns first, then one assignment
per sorted party, keyed by the party name. -/
def csv_row (sorted_parties : List (String × String)) (municipality : Municipality) :
    List (String × Cell) :=
  let csv_row0 := base_columns.foldl (fun r column =>
    dictInsert column (municipalityGet municipality column) r) []
  sorted_parties.foldl (fun r p =>
    dictInsert p.2 (Cell.int (party_votes municipality p.1)) r) csv_row0

/-- Observable events of a run. -/
inductive Event where
  | fetchListing (url : String)
  | fetchDetail (url : String)
  | writeCsv (filename : String)
  | message (s : String)
deriving Repr, DecidableEq

def export_msg (filename : String) : String := s!"Exportuji data do souboru: {filename}"
def save_ok_msg (filename : String) : String := s!"Data byla úspěšně uložena do {filename}."
def write_fail_msg : String := "  -> CHYBA: Nepodařilo se zapsat do souboru."
def listing_fail_msg : String := "Nepodařilo se stáhnout hlavní stránku. Ukončuji program."
def no_munis_msg : String := "Nebyly nalezeny žádné obce. Ukončuji program."
def done_msg : String := "Program úspěšně dokončen."
def found_msg (n : Nat) : String := s!"Nalezeno {n} obcí ke zpracování."

/-- The data a completed export holds: the sorted parties, the final column
order, the rows in input order, and whether `to_csv` succeeded. -/
structure ExportOut where
  sortedParties : List (String × String)
  columns : List String
  rows : List (List (String × Cell))
  writeSucceeded : Bool
deriving Repr, DecidableEq

/-- `export_to_csv`: collect, sort (an invalid party id raises, modelled with
`Except.error`), flatten, reorder the columns, then attempt the single write;
`IOError` on the write is caught and reported, never retried.

The column reorder `dataframe[final_column_order]` raises an uncaught
`KeyError` exactly when `csv_data` is empty: the frame built from an empty
list has no columns at all, while every non-empty `csv_data` gives a frame
whose columns cover `final_column_order` (each row dict holds every base
column and every sorted party name).  That error path is the second
`Except.error` branch below. -/
def export_to_csv (municipalities_data : List Municipality) (output_filename : String)
    (writeOk : Bool) : List Event × Except Unit ExportOut :=
  let ev0 := [Event.message (export_msg output_filename)]
  match sorted_parties? (collect_all_parties municipalities_data) with
  | Except.error e => (ev0, Except.error e)
  | Except.ok sorted =>
    let csv_data := municipalities_data.map (csv_row sorted)
    if csv_data = [] then (ev0, Except.error ())
    else
      let out : ExportOut :=
        { sortedParties := sorted
          columns := base_columns ++ sorted.map (fun p => p.2)
          rows := csv_data
          writeSucceeded := writeOk }
      (ev0 ++ [Event.writeCsv output_filename,
        Event.message (if writeOk then save_ok_msg output_filename else write_fail_msg)],
       Except.ok out)

/-! ### The orchestrator `main` -/

/-- The external world: the parsed listing page (none = fetch failed), each
detail page by URL (none = fetch failed), `urljoin`, and whether the CSV write
succeeds. -/
structure Env where
  listing : Option (List LRow)
  detail : String → Option DetailDoc
  join : String → String → String
  writeOk : Bool

/-- The body of the per-municipality loop: fetch the detail page and, when it
arrives and parses, merge the detail record into the municipality dict. -/
def process_one (env : Env) (municipality : Municipality) : Municipality :=
  match municipality.link with
  | none => municipality
  | some url =>
    match env.detail url with
    | none => municipality
    | some doc =>
      match scrape_one_place_details (some doc) with
      | none => municipality
      | some d =>
        { municipality with
          registered := some d.registered
          envelopes := some d.envelopes
          valid := some d.valid
          parties := some d.parties }

/-- Terminal state of a run. -/
inductive RunOutcome where
  | listingFailed
  | noMunicipalities
  | crashed
  | finished (out : ExportOut)
deriving Repr, DecidableEq

/-- `main`: fetch and parse the listing (abort on failure), extract the stubs
(abort when none), fetch details sequentially with failures absorbed, then
export. -/
def main_run (env : Env) (url filename : String) : List Event × RunOutcome :=
  let ev0 := [Event.fetchListing url]
  match env.listing with
  | none => (ev0 ++ [Event.message listing_fail_msg], RunOutcome.listingFailed)
  | some page =>
    let municipalities := scrape_municipalities_list env.join page url
    let ev1 := ev0 ++ [Event.message (found_msg municipalities.length)]
    if municipalities = [] then
      (ev1 ++ [Event.message no_munis_msg], RunOutcome.noMunicipalities)
    else
      let processed := municipalities.map (process_one env)
      let evD := municipalities.map (fun m => Event.fetchDetail (m.link.getD ""))
      match export_to_csv processed filename env.writeOk with
      | (evE, Except.error _) => (ev1 ++ evD ++ evE, RunOutcome.crashed)
      | (evE, Except.ok out) =>
        (ev1 ++ evD ++ evE ++ [Event.message done_msg], RunOutcome.finished out)

/-- One conditional dict insertion driven by an entry-producing function. -/
def entStep {α β : Type} (ent : α → Option (String × β)) (d : List (String × β)) (a : α) :
    List (String × β) :=
  match ent a with
  | some kv => dictInsert kv.1 kv.2 d
  | none => d

/-- Spec-side: a listing row is retained when both elements are present and
href, code and name are non-empty. -/
def rowValidSpec (row : LRow) : Bool :=
  match row.linkElem, row.nameElem with
  | some link_element, some name =>
    match link_element.href with
    | some href => decide (href ≠ "" ∧ link_element.text ≠ "" ∧ name ≠ "")
    | none => false
  | _, _ => false

/-- Spec-side: the stub built from a retained row — its code, its name, and
its href resolved against the base URL. -/
def stubOfRowSpec (join : String → String → String) (base_url : String) (row : LRow) :
    Municipality :=
  match row.linkElem, row.nameElem with
  | some link_element, some name =>
    { code := some link_element.text, location := some name,
      link := some (join base_url (link_element.href.getD "")) }
  | _, _ => {}

/-- All party-table rows after each fragment's header row, in document
order. -/
def partyRows (doc : DetailDoc) : List (List String) :=
  doc.containers.foldr (fun t acc =>
    (match t with
     | none => []
     | some rows => rows.drop HEADER_ROW_INDEX) ++ acc) []

/-- The entry a single row contributes: its first three cells interpreted as
party number, name and votes, kept only when it qualifies and the name is
valid. -/
def rowEntry? (cells : List String) : Option (String × PartyInfo) :=
  match cells with
  | party_number :: party_name :: votes_text :: _ =>
    if party_name ≠ "" ∧ party_name ≠ INVALID_PARTY_NAME then
      some (party_number, { nazev := party_name, hlasy := clean_number votes_text })
    else none
  | _ => none

/-- The entry one sorted party contributes to a row: keyed by the party NAME,
holding the record's vote count for the party id. -/
def partyCellEnt (m : Municipality) (p : String × String) : Option (String × Cell) :=
  some (p.2, Cell.int (party_votes m p.1))

/-- The integer a party id denotes (sound only where `pyInt?` succeeds). -/
def pyIntVal (pid : String) : Int := (pyInt? pid).getD 0

/-! ### Result projections and concrete example inputs -/

/-- The rows of a completed export (empty when the export raised). -/
def exportRows (r : Except Unit ExportOut) : List (List (String × Cell)) :=
  match r with
  | Except.ok o => o.rows
  | Except.error _ => []

/-- The rows a finished run exported (empty for any other outcome). -/
def finishedRows (o : RunOutcome) : List (List (String × Cell)) :=
  match o with
  | RunOutcome.finished out => out.rows
  | _ => []

/-- Recognizer for write events. -/
def isWriteEvent (e : Event) : Bool :=
  match e with
  | Event.writeCsv _ => true
  | _ => false

/-- A record holding two distinct party ids that share one party name. -/
def exMunicipalitySharedName : Municipality :=
  { parties := some [("1", { nazev := "X", hlasy := 5 }), ("2", { nazev := "X", hlasy := 7 })] }

/-- A record holding the party ids "01" and "1", distinct strings denoting the
same integer. -/
def exMunicipalityLeadingZero : Municipality :=
  { parties := some [("01", { nazev := "A", hlasy := 1 }), ("1", { nazev := "B", hlasy := 2 })] }

/-- Well-formed example records (distinct ids, distinct names). -/
def exMunicipalityA : Municipality :=
  { code := some "535826", location := some "Alpha",
    registered := some 200, envelopes := some 160, valid := some 150,
    parties := some [("1", { nazev := "PartyX", hlasy := 100 }),
                     ("2", { nazev := "PartyY", hlasy := 50 })] }

def exMunicipalityB : Municipality :=
  { code := some "535827", location := some "Bravo",
    registered := some 100, envelopes := some 60, valid := some 59,
    parties := some [("2", { nazev := "PartyY", hlasy := 30 })] }

/-- A record whose single party id is not an integer literal. -/
def exMunicipalityBadId : Municipality :=
  { parties := some [("x", { nazev := "P", hlasy := 1 })] }

/-- A listing page with two complete rows and one row lacking the link
element. -/
def exPage : List LRow :=
  [{ linkElem := some { href := some "h1", text := "535826" }, nameElem := some "Obec A" },
   { linkElem := some { href := some "h2", text := "535827" }, nameElem := some "Obec B" },
   { linkElem := none, nameElem := some "skip" }]

/-- A listing page whose only rows are deficient. -/
def exPageMalformed : List LRow :=
  [{ linkElem := none, nameElem := some "only name" },
   { linkElem := some { href := some "h", text := "123" }, nameElem := none },
   { linkElem := some { href := none, text := "456" }, nameElem := some "no href" }]

/-- A detail document with the three summary fields and one party table. -/
def exDetailDoc : DetailDoc :=
  { registered_el := some "100", envelopes_el := some "60", valid_el := some "59",
    containers := [some [["hdr"], ["7", "PartyZ", "40"]]] }

/-- A parsed detail document in which no field and no party table is found. -/
def exDetailDocEmpty : DetailDoc :=
  { registered_el := none, envelopes_el := none, valid_el := none, containers := [] }

/-- The stubs the example listing page yields. -/
def exStubA : Municipality :=
  { code := some "535826", location := some "Obec A", link := some "base/h1" }

def exStubB : Municipality :=
  { code := some "535827", location := some "Obec B", link := some "base/h2" }

/-- Environment where the detail fetch fails for the first municipality and
succeeds for the second. -/
def exEnvDetailFail : Env :=
  { listing := some exPage,
    detail := fun u => if u = "base/h2" then some exDetailDoc else none,
    join := fun b h => b ++ "/" ++ h,
    writeOk := true }

/-- Environment whose listing page has only malformed rows. -/
def exEnvMalformed : Env :=
  { listing := some exPageMalformed,
    detail := fun _ => some exDetailDoc,
    join := fun b h => b ++ "/" ++ h,
    writeOk := true }

/-- Environment where every fetch succeeds but the CSV write fails. -/
def exEnvWriteFail : Env :=
  { listing := some exPage,
    detail := fun _ => some exDetailDoc,
    join := fun b h => b ++ "/" ++ h,
    writeOk := false }

/-! ### Association-list (`dict`) lemmas -/

theorem dictFind?_dictInsert {β : Type} (k k' : String) (v : β) (d : List (String × β)) :
    dictFind? k (dictInsert k' v d) = if k' = k then some v else dictFind? k d := by
  induction d with
  | nil => simp [dictInsert, dictFind?]
  | cons hd tl ih =>
    obtain ⟨k₀, v₀⟩ := hd
    by_cases h0 : k₀ = k'
    · subst h0
      simp only [dictInsert, if_pos rfl, dictFind?]
      by_cases hk : k₀ = k
      · simp [hk]
      · simp [hk]
    · simp only [dictInsert, if_neg h0, dictFind?]
      by_cases hk : k₀ = k
      · subst hk
        simp only [if_pos rfl]
        have : k' ≠ k₀ := fun e => h0 e.symm
        simp [if_neg this]
      · simp [if_neg hk, ih]

theorem dictFind?_isSome_iff {β : Type} (k : String) (d : List (String × β)) :
    (dictFind? k d).isSome ↔ k ∈ d.map Prod.fst := by
  induction d with
  | nil => simp [dictFind?]
  | cons hd tl ih =>
    obtain ⟨k₀, v₀⟩ := hd
    by_cases hk : k₀ = k
    · subst hk; simp [dictFind?]
    · simp only [dictFind?, if_neg hk, List.map_cons, List.mem_cons, ih]
      constructor
      · exact Or.inr
      · rintro (h | h)
        · exact absurd h.symm hk
        · exact h

theorem mem_of_dictFind?_eq_some {β : Type} {k : String} {v : β} {d : List (String × β)}
    (h : dictFind? k d = some v) : (k, v) ∈ d := by
  induction d with
  | nil => simp [dictFind?] at h
  | cons hd tl ih =>
    obtain ⟨k₀, v₀⟩ := hd
    by_cases hk : k₀ = k
    · subst hk
      have h' : v₀ = v := by simpa [dictFind?] using h
      subst h'; exact List.mem_cons_self _ _
    · simp only [dictFind?, if_neg hk] at h
      exact List.mem_cons_of_mem _ (ih h)

/-- The effect of a fold of conditional dict insertions: the binding of `k` is
produced by the last element generating an entry keyed `k`, that is, the first
one in reverse order; when no element does, the initial dict decides. -/
theorem dictFind?_foldl_entries {α β : Type} (ent : α → Option (String × β)) (k : String) :
    ∀ (l : List α) (r0 : List (String × β)),
      dictFind? k (l.foldl (entStep ent) r0) =
        match (l.reverse.filterMap ent).find? (fun kv => kv.1 = k) with
        | some kv => some kv.2
        | none => dictFind? k r0 := by
  intro l
  induction l with
  | nil => intro r0; simp
  | cons a l ih =>
    intro r0
    rw [List.foldl_cons, ih, List.reverse_cons, List.filterMap_append, List.find?_append]
    cases hfa : (l.reverse.filterMap ent).find? (fun kv => decide (kv.1 = k)) with
    | some kv => simp [hfa, Option.or]
    | none =>
      simp only [hfa, Option.none_or]
      cases hea : ent a with
      | none =>
        simp only [List.filterMap_cons, hea, List.filterMap_nil, List.find?_nil, entStep]
      | some kv =>
        simp only [List.filterMap_cons, hea, List.filterMap_nil, entStep]
        rw [dictFind?_dictInsert]
        by_cases hk : kv.1 = k
        · rw [List.find?_cons_of_pos _ (by simpa using hk), if_pos hk]
        · rw [List.find?_cons_of_neg _ (by simpa using hk), List.find?_nil, if_neg hk]

/-- In a list whose second components are pairwise distinct, the only element
sharing `p`'s second component is `p` itself. -/
theorem find?_snd_eq_of_nodup {γ : Type} {l : List (γ × String)} {p : γ × String}
    (hn : (l.map Prod.snd).Nodup) (hp : p ∈ l) :
    l.find? (fun q => q.2 = p.2) = some p := by
  induction l with
  | nil => simp at hp
  | cons a l ih =>
    simp only [List.map_cons, List.nodup_cons] at hn
    rcases List.mem_cons.1 hp with h | h
    · subst h
      simp [List.find?]
    · have hne : ¬(a.2 = p.2) := by
        intro e
        exact hn.1 (e ▸ List.mem_map_of_mem Prod.snd h)
      rw [List.find?_cons_of_neg _ (by simpa using hne)]
      exact ih hn.2 h
/-! ### `collect_all_parties` lemmas -/

theorem keys_first_sight_fold (ps : PartyDict) (k : String) :
    ∀ acc : List (String × String),
      (k ∈ (ps.foldl (fun acc kv =>
          if (dictFind? kv.1 acc).isSome then acc else acc ++ [(kv.1, kv.2.nazev)]) acc).map
          Prod.fst) ↔
        k ∈ acc.map Prod.fst ∨ k ∈ ps.map Prod.fst := by
  induction ps with
  | nil => intro acc; simp
  | cons kv ps ih =>
    intro acc
    rw [List.foldl_cons]
    by_cases hs : (dictFind? kv.1 acc).isSome
    · rw [if_pos hs, ih]
      have hk : kv.1 ∈ acc.map Prod.fst := (dictFind?_isSome_iff _ _).1 hs
      simp only [List.map_cons, List.mem_cons]
      constructor
      · rintro (h | h)
        · exact Or.inl h
        · exact Or.inr (Or.inr h)
      · rintro (h | h | h)
        · exact Or.inl h
        · exact Or.inl (h ▸ hk)
        · exact Or.inr h
    · rw [if_neg hs, ih]
      simp only [List.map_append, List.map_cons, List.map_nil, List.mem_append,
        List.mem_cons, List.mem_singleton]
      tauto

theorem keys_first_sight_fold_nodup (ps : PartyDict) :
    ∀ acc : List (String × String), (acc.map Prod.fst).Nodup →
      ((ps.foldl (fun acc kv =>
          if (dictFind? kv.1 acc).isSome then acc else acc ++ [(kv.1, kv.2.nazev)]) acc).map
          Prod.fst).Nodup := by
  induction ps with
  | nil => intro acc h; simpa using h
  | cons kv ps ih =>
    intro acc h
    rw [List.foldl_cons]
    by_cases hs : (dictFind? kv.1 acc).isSome
    · rw [if_pos hs]; exact ih _ h
    · rw [if_neg hs]
      refine ih _ ?_
      have hk : kv.1 ∉ acc.map Prod.fst := by
        intro hmem
        exact hs ((dictFind?_isSome_iff _ _).2 hmem)
      simp only [List.map_append, List.map_cons, List.map_nil, List.nodup_append]
      refine ⟨h, List.nodup_singleton _, ?_⟩
      intro a ha hb
      rw [List.mem_singleton] at hb
      exact hk (hb ▸ ha)

theorem mem_keys_add_municipality (m : Municipality) (acc : List (String × String))
    (k : String) :
    k ∈ (add_municipality_parties acc m).map Prod.fst ↔
      k ∈ acc.map Prod.fst ∨ ∃ ps, m.parties = some ps ∧ (dictFind? k ps).isSome := by
  unfold add_municipality_parties
  cases hp : m.parties with
  | none => simp
  | some ps =>
    dsimp only
    by_cases he : ps = []
    · subst he
      simp [dictFind?]
    · rw [if_neg he, keys_first_sight_fold]
      simp only [Option.some.injEq]
      constructor
      · rintro (h | h)
        · exact Or.inl h
        · exact Or.inr ⟨ps, rfl, (dictFind?_isSome_iff _ _).2 h⟩
      · rintro (h | ⟨ps', hps', h⟩)
        · exact Or.inl h
        · subst hps'
          exact Or.inr ((dictFind?_isSome_iff _ _).1 h)

theorem nodup_keys_add_municipality (m : Municipality) (acc : List (String × String))
    (h : (acc.map Prod.fst).Nodup) :
    ((add_municipality_parties acc m).map Prod.fst).Nodup := by
  unfold add_municipality_parties
  cases m.parties with
  | none => exact h
  | some ps =>
    dsimp only
    by_cases he : ps = []
    · subst he; simpa using h
    · rw [if_neg he]
      exact keys_first_sight_fold_nodup ps acc h

theorem mem_keys_collect_fold (ms : List Municipality) (k : String) :
    ∀ acc : List (String × String),
      k ∈ (ms.foldl add_municipality_parties acc).map Prod.fst ↔
        k ∈ acc.map Prod.fst ∨
          ∃ m ∈ ms, ∃ ps, m.parties = some ps ∧ (dictFind? k ps).isSome := by
  induction ms with
  | nil => intro acc; simp
  | cons m ms ih =>
    intro acc
    rw [List.foldl_cons, ih, mem_keys_add_municipality]
    simp only [List.mem_cons]
    constructor
    · rintro ((h | h) | ⟨m', hm', h⟩)
      · exact Or.inl h
      · exact Or.inr ⟨m, Or.inl rfl, h⟩
      · exact Or.inr ⟨m', Or.inr hm', h⟩
    · rintro (h | ⟨m', hm' | hm', h⟩)
      · exact Or.inl (Or.inl h)
      · exact Or.inl (Or.inr (hm' ▸ h))
      · exact Or.inr ⟨m', hm', h⟩

theorem mem_keys_collect (ms : List Municipality) (k : String) :
    k ∈ (collect_all_parties ms).map Prod.fst ↔
      ∃ m ∈ ms, ∃ ps, m.parties = some ps ∧ (dictFind? k ps).isSome := by
  rw [collect_all_parties, mem_keys_collect_fold]
  simp

theorem nodup_keys_collect (ms : List Municipality) :
    ((collect_all_parties ms).map Prod.fst).Nodup := by
  rw [collect_all_parties]
  have : ∀ acc : List (String × String), (acc.map Prod.fst).Nodup →
      ((ms.foldl add_municipality_parties acc).map Prod.fst).Nodup := by
    induction ms with
    | nil => intro acc h; exact h
    | cons m ms ih =>
      intro acc h
      rw [List.foldl_cons]
      exact ih _ (nodup_keys_add_municipality m acc h)
  exact this [] (by simp)

/-- A municipality whose record has no `parties` key contributes nothing to
the global party collection. -/
theorem collect_skip_middle (xs ys : List Municipality) (m : Municipality)
    (h : m.parties = none) :
    collect_all_parties (xs ++ m :: ys) = collect_all_parties (xs ++ ys) := by
  unfold collect_all_parties
  rw [List.foldl_append, List.foldl_cons, List.foldl_append]
  have : add_municipality_parties (xs.foldl add_municipality_parties []) m =
      xs.foldl add_municipality_parties [] := by
    unfold add_municipality_parties
    rw [h]
  rw [this]

/-! ### `buildKeyed` and `sorted_parties?` lemmas -/

theorem buildKeyed_isSome (all : List (String × String))
    (h : ∀ e ∈ all, (pyInt? e.1).isSome) : ∃ l, buildKeyed all = some l := by
  induction all with
  | nil => exact ⟨[], rfl⟩
  | cons e rest ih =>
    obtain ⟨l, hl⟩ := ih (fun e' he' => h e' (List.mem_cons_of_mem _ he'))
    have he : (pyInt? e.1).isSome := h e (List.mem_cons_self _ _)
    obtain ⟨n, hn⟩ := Option.isSome_iff_exists.1 he
    exact ⟨(n, e.1, e.2) :: l, by rw [buildKeyed, hn, hl]⟩

theorem buildKeyed_spec :
    ∀ {all : List (String × String)} {l : List (Int × String × String)},
      buildKeyed all = some l →
        l.map (fun t => t.2) = all ∧ ∀ t ∈ l, pyInt? t.2.1 = some t.1 := by
  intro all
  induction all with
  | nil =>
    intro l h
    rw [buildKeyed] at h
    cases h
    simp
  | cons e rest ih =>
    intro l h
    rw [buildKeyed] at h
    split at h
    · rename_i n l' hn hr
      cases h
      obtain ⟨h1, h2⟩ := ih hr
      refine ⟨by simp [h1], ?_⟩
      intro t ht
      rcases List.mem_cons.1 ht with ht | ht
      · subst ht; exact hn
      · exact h2 t ht
    · cases h

theorem sorted_parties?_ok {all sorted : List (String × String)}
    (h : sorted_parties? all = Except.ok sorted) :
    ∃ keyed, buildKeyed all = some keyed ∧
      sorted = (keyed.insertionSort tupLE).map (fun t => t.2) := by
  unfold sorted_parties? at h
  split at h
  · cases h
  · rename_i keyed hb
    cases h
    exact ⟨keyed, hb, rfl⟩

theorem sorted_parties?_perm {all sorted : List (String × String)}
    (h : sorted_parties? all = Except.ok sorted) : sorted.Perm all := by
  obtain ⟨keyed, hb, hs⟩ := sorted_parties?_ok h
  obtain ⟨h1, -⟩ := buildKeyed_spec hb
  subst hs
  have hp : List.Perm ((keyed.insertionSort tupLE).map (fun t => t.2))
      (keyed.map (fun t => t.2)) :=
    (List.perm_insertionSort tupLE keyed).map _
  rw [h1] at hp
  exact hp

/-! ### Listing refinement (spec-side description of the extraction) -/

theorem scrape_step_eq (join : String → String → String) (base_url : String)
    (acc : List Municipality) (row : LRow) :
    (match row.linkElem, row.nameElem with
     | some link_element, some name =>
       match link_element.href with
       | some href =>
         if href ≠ "" ∧ link_element.text ≠ "" ∧ name ≠ "" then
           acc ++
             [{ code := some link_element.text, location := some name,
                link := some (join base_url href) }]
         else acc
       | none => acc
     | _, _ => acc) =
      acc ++ (if rowValidSpec row then [stubOfRowSpec join base_url row] else []) := by
  obtain ⟨le?, nm?⟩ := row
  cases le? with
  | none => simp [rowValidSpec]
  | some le =>
    cases nm? with
    | none => simp [rowValidSpec]
    | some nm =>
      cases hh : le.href with
      | none => simp [rowValidSpec, hh]
      | some href =>
        by_cases hc : href ≠ "" ∧ le.text ≠ "" ∧ nm ≠ ""
        · have hv : rowValidSpec ⟨some le, some nm⟩ = true := by
            simp only [rowValidSpec, hh, decide_eq_true_eq]
            exact hc
          simp only [hh, if_pos hc, hv, if_true]
          simp [stubOfRowSpec, hh]
        · have hv : rowValidSpec ⟨some le, some nm⟩ = false := by
            simp only [rowValidSpec, hh]
            exact decide_eq_false hc
          simp only [hh, if_neg hc, hv, if_false]
          simp

theorem scrape_municipalities_fold (join : String → String → String) (base_url : String)
    (page : List LRow) :
    ∀ acc : List Municipality,
      page.foldl (fun municipalities row =>
        match row.linkElem, row.nameElem with
        | some link_element, some name =>
          match link_element.href with
          | some href =>
            if href ≠ "" ∧ link_element.text ≠ "" ∧ name ≠ "" then
              municipalities ++
                [{ code := some link_element.text, location := some name,
                   link := some (join base_url href) }]
            else municipalities
          | none => municipalities
        | _, _ => municipalities) acc =
      acc ++ (page.filter rowValidSpec).map (stubOfRowSpec join base_url) := by
  induction page with
  | nil => intro acc; simp
  | cons row page ih =>
    intro acc
    rw [List.foldl_cons, List.filter_cons]
    rw [scrape_step_eq join base_url acc row, ih]
    by_cases hv : rowValidSpec row = true
    · rw [if_pos hv, if_pos hv]
      simp
    · rw [if_neg hv, if_neg hv]
      simp

/-- The listing extraction keeps exactly the valid rows, in order, mapped to
their stubs. -/
theorem scrape_municipalities_eq (join : String → String → String) (page : List LRow)
    (base_url : String) :
    scrape_municipalities_list join page base_url =
      (page.filter rowValidSpec).map (stubOfRowSpec join base_url) := by
  unfold scrape_municipalities_list
  rw [scrape_municipalities_fold]
  simp

/-- Every stub produced by the listing extraction has only the code, location
and link keys. -/
theorem mem_scrape_shape {join : String → String → String} {page : List LRow}
    {base_url : String} {m : Municipality}
    (h : m ∈ scrape_municipalities_list join page base_url) :
    m.registered = none ∧ m.envelopes = none ∧ m.valid = none ∧ m.parties = none ∧
      ∃ u, m.link = some u := by
  rw [scrape_municipalities_eq] at h
  obtain ⟨row, hrow, hm⟩ := List.mem_map.1 h
  have hv : rowValidSpec row = true := (List.mem_filter.1 hrow).2
  subst hm
  obtain ⟨le?, nm?⟩ := row
  cases le? with
  | none => simp [rowValidSpec] at hv
  | some le =>
    cases nm? with
    | none => simp [rowValidSpec] at hv
    | some nm => exact ⟨rfl, rfl, rfl, rfl, _, rfl⟩

/-! ### Detail-table flattening -/

theorem add_party_row_eq (d : PartyDict) (cells : List String) :
    add_party_row d cells = entStep rowEntry? d cells := by
  unfold add_party_row rowEntry? entStep
  match cells with
  | [] => rfl
  | [_] => rfl
  | [_, _] => rfl
  | a :: b :: c :: rest =>
    dsimp only
    by_cases hc : b ≠ "" ∧ b ≠ INVALID_PARTY_NAME
    · rw [if_pos hc, if_pos hc]
    · rw [if_neg hc, if_neg hc]

theorem scrape_parties_eq (doc : DetailDoc) :
    scrape_parties doc = (partyRows doc).foldl add_party_row [] := by
  unfold scrape_parties partyRows
  generalize doc.containers = cs
  have : ∀ (cs : List (Option (List (List String)))) (acc : PartyDict),
      cs.foldl add_table acc =
        (cs.foldr (fun t a =>
          (match t with
           | none => []
           | some rows => rows.drop HEADER_ROW_INDEX) ++ a) []).foldl add_party_row acc := by
    intro cs
    induction cs with
    | nil => intro acc; rfl
    | cons t cs ih =>
      intro acc
      rw [List.foldl_cons, List.foldr_cons, List.foldl_append, ih]
      congr 1
      cases t with
      | none => rfl
      | some rows => rfl
  exact this cs []

/-- Lookup in the accumulated parties dict: the last row generating an entry
for the key wins; no such row means the key is absent. -/
theorem dictFind?_scrape_parties (doc : DetailDoc) (k : String) :
    dictFind? k (scrape_parties doc) =
      (((partyRows doc).reverse.filterMap rowEntry?).find?
        (fun kv => kv.1 = k)).map (fun kv => kv.2) := by
  rw [scrape_parties_eq]
  have hfun : add_party_row = entStep rowEntry? :=
    funext fun d => funext fun a => add_party_row_eq d a
  rw [hfun, dictFind?_foldl_entries]
  cases hf : ((partyRows doc).reverse.filterMap rowEntry?).find? (fun kv => kv.1 = k) with
  | none => simp [dictFind?]
  | some kv => simp

/-! ### `csv_row` lookup lemmas -/

theorem dictFind?_csv_row (sorted : List (String × String)) (m : Municipality)
    (key : String) :
    dictFind? key (csv_row sorted m) =
      match sorted.reverse.find? (fun p => p.2 = key) with
      | some p => some (Cell.int (party_votes m p.1))
      | none => dictFind? key (csv_row [] m) := by
  show dictFind? key (sorted.foldl _ _) = _
  have hfun : (fun r (p : String × String) =>
      dictInsert p.2 (Cell.int (party_votes m p.1)) r) = entStep (partyCellEnt m) :=
    funext fun r => funext fun p => rfl
  rw [hfun, dictFind?_foldl_entries]
  have hmap : sorted.reverse.filterMap (partyCellEnt m) =
      sorted.reverse.map (fun p => (p.2, Cell.int (party_votes m p.1))) := by
    have : partyCellEnt m = some ∘ (fun p => (p.2, Cell.int (party_votes m p.1))) := rfl
    rw [this, List.filterMap_eq_map]
  rw [hmap, List.find?_map]
  cases hf : sorted.reverse.find? (fun p => decide (p.2 = key)) with
  | none =>
    have : sorted.reverse.find?
        ((fun kv : String × Cell => decide (kv.1 = key)) ∘
          fun p => (p.2, Cell.int (party_votes m p.1))) = none := hf
    rw [this]
    rfl
  | some p =>
    have : sorted.reverse.find?
        ((fun kv : String × Cell => decide (kv.1 = key)) ∘
          fun p => (p.2, Cell.int (party_votes m p.1))) = some p := hf
    rw [this]
    rfl

/-- With pairwise-distinct party names, the cell at a party's name column is
exactly that record's vote count for the party. -/
theorem dictFind?_csv_row_party {sorted : List (String × String)} {m : Municipality}
    {p : String × String} (hn : (sorted.map Prod.snd).Nodup) (hp : p ∈ sorted) :
    dictFind? p.2 (csv_row sorted m) = some (Cell.int (party_votes m p.1)) := by
  rw [dictFind?_csv_row]
  have hrev : (sorted.reverse.map Prod.snd).Nodup := by
    rw [List.map_reverse, List.nodup_reverse]
    exact hn
  rw [find?_snd_eq_of_nodup hrev (List.mem_reverse.2 hp)]

/-- A record with no parties key gets 0 in every party column. -/
theorem dictFind?_csv_row_zero {sorted : List (String × String)} {m : Municipality}
    {p : String × String} (hparties : m.parties = none) (hp : p ∈ sorted) :
    dictFind? p.2 (csv_row sorted m) = some (Cell.int 0) := by
  rw [dictFind?_csv_row]
  have hsome : (sorted.reverse.find? (fun q => q.2 = p.2)).isSome := by
    rw [List.find?_isSome]
    exact ⟨p, List.mem_reverse.2 hp, by simp⟩
  obtain ⟨q, hq⟩ := Option.isSome_iff_exists.1 hsome
  rw [hq]
  have hz : party_votes m q.1 = 0 := by
    unfold party_votes
    rw [hparties]
    rfl
  dsimp only
  rw [hz]

theorem dictFind?_csv_row_nil_registered (m : Municipality) :
    dictFind? REGISTERED_COLUMN (csv_row [] m) =
      some (municipalityGet m REGISTERED_COLUMN) := rfl

theorem dictFind?_csv_row_nil_envelopes (m : Municipality) :
    dictFind? ENVELOPES_COLUMN (csv_row [] m) =
      some (municipalityGet m ENVELOPES_COLUMN) := rfl

theorem dictFind?_csv_row_nil_valid (m : Municipality) :
    dictFind? VALID_COLUMN (csv_row [] m) = some (municipalityGet m VALID_COLUMN) := rfl

/-- When no party is named like the base column `key`, the cell at `key` is
the base value. -/
theorem dictFind?_csv_row_of_no_party_named {sorted : List (String × String)}
    {m : Municipality} {key : String}
    (hnames : ∀ p ∈ sorted, ¬p.2 = key) :
    dictFind? key (csv_row sorted m) = dictFind? key (csv_row [] m) := by
  rw [dictFind?_csv_row]
  have : sorted.reverse.find? (fun q => q.2 = key) = none :=
    List.find?_eq_none.2 fun q hq => by
      simpa using hnames q (List.mem_reverse.1 hq)
  rw [this]

theorem municipalityGet_registered_none {m : Municipality} (h : m.registered = none) :
    municipalityGet m REGISTERED_COLUMN = Cell.str DEFAULT_VALUE := by
  unfold municipalityGet
  rw [if_neg (by decide), if_neg (by decide), if_pos rfl, h]

theorem municipalityGet_envelopes_none {m : Municipality} (h : m.envelopes = none) :
    municipalityGet m ENVELOPES_COLUMN = Cell.str DEFAULT_VALUE := by
  unfold municipalityGet
  rw [if_neg (by decide), if_neg (by decide), if_neg (by decide), if_pos rfl, h]

theorem municipalityGet_valid_none {m : Municipality} (h : m.valid = none) :
    municipalityGet m VALID_COLUMN = Cell.str DEFAULT_VALUE := by
  unfold municipalityGet
  rw [if_neg (by decide), if_neg (by decide), if_neg (by decide), if_neg (by decide),
    if_pos rfl, h]

/-! ### Sort-order lemmas -/

theorem strLt_trichotomy : ∀ as bs : List Char,
    strLt as bs = true ∨ as = bs ∨ strLt bs as = true := by
  intro as
  induction as with
  | nil =>
    intro bs
    cases bs with
    | nil => exact Or.inr (Or.inl rfl)
    | cons b bs => exact Or.inl rfl
  | cons a as ih =>
    intro bs
    cases bs with
    | nil => exact Or.inr (Or.inr rfl)
    | cons b bs =>
      by_cases hab : a = b
      · subst hab
        rcases ih bs with h | h | h
        · exact Or.inl (by simp [strLt, h])
        · exact Or.inr (Or.inl (by rw [h]))
        · exact Or.inr (Or.inr (by simp [strLt, h]))
      · rcases lt_trichotomy a b with h | h | h
        · exact Or.inl (by simp [strLt, hab, h])
        · exact absurd h hab
        · have hba : ¬b = a := fun e => hab e.symm
          exact Or.inr (Or.inr (by simp [strLt, hba, h]))

theorem strLt_trans : ∀ as bs cs : List Char,
    strLt as bs = true → strLt bs cs = true → strLt as cs = true := by
  intro as
  induction as with
  | nil =>
    intro bs cs h1 h2
    cases bs with
    | nil => simp [strLt] at h1
    | cons b bs =>
      cases cs with
      | nil => simp [strLt] at h2
      | cons c cs => rfl
  | cons a as ih =>
    intro bs cs h1 h2
    cases bs with
    | nil => simp [strLt] at h1
    | cons b bs =>
      cases cs with
      | nil => simp [strLt] at h2
      | cons c cs =>
        by_cases hab : a = b
        · subst hab
          by_cases hbc : a = c
          · subst hbc
            have h1' : strLt as bs = true := by simpa [strLt] using h1
            have h2' : strLt bs cs = true := by simpa [strLt] using h2
            simp [strLt, ih bs cs h1' h2']
          · have h2' : a < c := by
              simp [strLt, hbc] at h2
              exact h2
            simp [strLt, hbc, h2']
        · have h1' : a < b := by
            simp [strLt, hab] at h1
            exact h1
          by_cases hbc : b = c
          · subst hbc
            simp [strLt, hab, h1']
          · have h2' : b < c := by
              simp [strLt, hbc] at h2
              exact h2
            have hac2 : a < c := h1'.trans h2'
            simp [strLt, ne_of_lt hac2, hac2]

theorem pyStrLt_trichotomy (a b : String) :
    pyStrLt a b = true ∨ a = b ∨ pyStrLt b a = true := by
  rcases strLt_trichotomy a.toList b.toList with h | h | h
  · exact Or.inl h
  · exact Or.inr (Or.inl (String.ext h))
  · exact Or.inr (Or.inr h)

theorem pyStrLt_trans {a b c : String} (h1 : pyStrLt a b = true)
    (h2 : pyStrLt b c = true) : pyStrLt a c = true :=
  strLt_trans _ _ _ h1 h2

theorem tupLE_total (a b : Int × String × String) : tupLE a b ∨ tupLE b a := by
  rcases lt_trichotomy a.1 b.1 with h | h | h
  · exact Or.inl (Or.inl h)
  · rcases pyStrLt_trichotomy a.2.1 b.2.1 with h2 | h2 | h2
    · exact Or.inl (Or.inr ⟨h, Or.inl h2⟩)
    · rcases pyStrLt_trichotomy a.2.2 b.2.2 with h3 | h3 | h3
      · exact Or.inl (Or.inr ⟨h, Or.inr ⟨h2, Or.inl h3⟩⟩)
      · exact Or.inl (Or.inr ⟨h, Or.inr ⟨h2, Or.inr h3⟩⟩)
      · exact Or.inr (Or.inr ⟨h.symm, Or.inr ⟨h2.symm, Or.inl h3⟩⟩)
    · exact Or.inr (Or.inr ⟨h.symm, Or.inl h2⟩)
  · exact Or.inr (Or.inl h)

theorem tupLE_trans (a b c : Int × String × String)
    (hab : tupLE a b) (hbc : tupLE b c) : tupLE a c := by
  rcases hab with h1 | ⟨e1, h1⟩
  · rcases hbc with h2 | ⟨e2, -⟩
    · exact Or.inl (h1.trans h2)
    · exact Or.inl (e2 ▸ h1)
  · rcases hbc with h2 | ⟨e2, h2⟩
    · exact Or.inl (e1 ▸ h2)
    · refine Or.inr ⟨e1.trans e2, ?_⟩
      rcases h1 with h1 | ⟨f1, h1⟩
      · rcases h2 with h2 | ⟨f2, -⟩
        · exact Or.inl (pyStrLt_trans h1 h2)
        · exact Or.inl (f2 ▸ h1)
      · rcases h2 with h2 | ⟨f2, h2⟩
        · exact Or.inl (f1 ▸ h2)
        · refine Or.inr ⟨f1.trans f2, ?_⟩
          rcases h1 with h1 | h1
          · rcases h2 with h2 | h2
            · exact Or.inl (pyStrLt_trans h1 h2)
            · exact Or.inl (h2 ▸ h1)
          · rcases h2 with h2 | h2
            · exact Or.inl (h1 ▸ h2)
            · exact Or.inr (h1.trans h2)

theorem sorted_pairwise_le {all sorted : List (String × String)}
    (h : sorted_parties? all = Except.ok sorted) :
    List.Pairwise (fun a b : String × String => pyIntVal a.1 ≤ pyIntVal b.1) sorted := by
  obtain ⟨keyed, hb, hs⟩ := sorted_parties?_ok h
  obtain ⟨hmap, hval⟩ := buildKeyed_spec hb
  subst hs
  rw [List.pairwise_map]
  haveI : IsTotal (Int × String × String) tupLE := ⟨tupLE_total⟩
  haveI : IsTrans (Int × String × String) tupLE := ⟨tupLE_trans⟩
  have hsorted : List.Pairwise tupLE (keyed.insertionSort tupLE) :=
    List.sorted_insertionSort tupLE keyed
  refine List.Pairwise.imp_of_mem ?_ hsorted
  intro a b ha hb' hab
  have hva : pyInt? a.2.1 = some a.1 := hval a ((List.mem_insertionSort tupLE).1 ha)
  have hvb : pyInt? b.2.1 = some b.1 := hval b ((List.mem_insertionSort tupLE).1 hb')
  have ea : pyIntVal a.2.1 = a.1 := by rw [pyIntVal, hva]; rfl
  have eb : pyIntVal b.2.1 = b.1 := by rw [pyIntVal, hvb]; rfl
  rw [ea, eb]
  rcases hab with h1 | ⟨h1, -⟩
  · exact le_of_lt h1
  · exact le_of_eq h1

theorem sorted_keys_nodup {ms : List Municipality} {sorted : List (String × String)}
    (h : sorted_parties? (collect_all_parties ms) = Except.ok sorted) :
    (sorted.map Prod.fst).Nodup := by
  have hperm := sorted_parties?_perm h
  exact ((hperm.map Prod.fst).nodup_iff).2 (nodup_keys_collect ms)

/-! ### `pyInt?` and `clean_number` lemmas -/

theorem mem_of_mem_pyStripChars {c : Char} {cs : List Char}
    (h : c ∈ pyStripChars cs) : c ∈ cs := by
  unfold pyStripChars at h
  rw [List.mem_reverse] at h
  have h1 := (List.dropWhile_sublist _).subset h
  rw [List.mem_reverse] at h1
  exact (List.dropWhile_sublist _).subset h1

theorem mem_of_mem_removeSpaces {c : Char} {s : String}
    (h : c ∈ (removeSpaces s).toList) : c ∈ s.toList :=
  (List.mem_filter.1 h).1

theorem pyInt?_nonneg {s : String} {n : Int} (hm : '-' ∉ s.toList)
    (h : pyInt? s = some n) : 0 ≤ n := by
  unfold pyInt? at h
  split at h
  · split at h
    · cases h; exact Int.natCast_nonneg _
    · cases h
  · rename_i rest heq
    exfalso
    apply hm
    apply mem_of_mem_pyStripChars
    rw [heq]
    exact List.mem_cons_self _ _
  · split at h
    · cases h; exact Int.natCast_nonneg _
    · cases h

/-! ### `process_one` and `main_run` unfolding lemmas -/

theorem process_one_fail {env : Env} {m : Municipality} {u : String}
    (hlink : m.link = some u) (hfail : env.detail u = none) :
    process_one env m = m := by
  unfold process_one
  rw [hlink]
  dsimp only
  rw [hfail]

theorem main_run_no_munis (env : Env) (url filename : String) (page : List LRow)
    (hpage : env.listing = some page)
    (hempty : scrape_municipalities_list env.join page url = []) :
    main_run env url filename =
      ([Event.fetchListing url, Event.message (found_msg 0), Event.message no_munis_msg],
       RunOutcome.noMunicipalities) := by
  unfold main_run
  rw [hpage]
  dsimp only
  rw [hempty]
  rfl

theorem main_run_finished_eq (env : Env) (url filename : String) (page : List LRow)
    (sorted : List (String × String))
    (hpage : env.listing = some page)
    (hne : scrape_municipalities_list env.join page url ≠ [])
    (hsorted : sorted_parties? (collect_all_parties
        ((scrape_municipalities_list env.join page url).map (process_one env))) =
      Except.ok sorted) :
    main_run env url filename =
      ([Event.fetchListing url,
        Event.message (found_msg (scrape_municipalities_list env.join page url).length)] ++
       (scrape_municipalities_list env.join page url).map
         (fun m => Event.fetchDetail (m.link.getD "")) ++
       ([Event.message (export_msg filename)] ++
        [Event.writeCsv filename,
         Event.message (if env.writeOk then save_ok_msg filename else write_fail_msg)]) ++
       [Event.message done_msg],
       RunOutcome.finished
         { sortedParties := sorted
           columns := base_columns ++ sorted.map (fun p => p.2)
           rows := ((scrape_municipalities_list env.join page url).map
             (process_one env)).map (csv_row sorted)
           writeSucceeded := env.writeOk }) := by
  unfold main_run export_to_csv
  rw [hpage]
  dsimp only
  rw [if_neg hne, hsorted]
  dsimp only
  rw [if_neg (show ¬((scrape_municipalities_list env.join page url).map
      (process_one env)).map (csv_row sorted) = [] by simp [hne])]
  dsimp only
  simp

/-! ### Claim theorems -/

/-- C2 (counterexample): `clean_number` is not non-negative on every string:
on "-5" it returns -5, a negative value. -/
theorem C2_counterexample : clean_number "-5" = -5 ∧ clean_number "-5" < 0 := by
  constructor
  · rfl
  · decide

/-- C2 (amended): `clean_number` is total — for every string it returns 0 on
empty input, the parsed base-10 value after removing ordinary and non-breaking
spaces when the cleaned text parses as an integer, and 0 when it fails to
parse; the result is non-negative whenever the input contains no minus sign
(but may be negative for signed inputs such as "-5"). -/
theorem C2_clean_number_total (text : String) :
    (text = "" → clean_number text = 0) ∧
    (pyInt? (removeSpaces text) = none → clean_number text = 0) ∧
    (∀ n : Int, pyInt? (removeSpaces text) = some n → clean_number text = n) ∧
    ('-' ∉ text.toList → 0 ≤ clean_number text) := by
  refine ⟨?_, ?_, ?_, ?_⟩
  · intro h
    unfold clean_number
    rw [if_pos h]
    rfl
  · intro h
    unfold clean_number
    by_cases he : text = ""
    · rw [if_pos he]; rfl
    · rw [if_neg he, h]
      rfl
  · intro n h
    unfold clean_number
    by_cases he : text = ""
    · subst he
      rw [show pyInt? (removeSpaces "") = none from rfl] at h
      cases h
    · rw [if_neg he, h]
  · intro hm
    unfold clean_number
    by_cases he : text = ""
    · rw [if_pos he]; decide
    · rw [if_neg he]
      cases hp : pyInt? (removeSpaces text) with
      | none => exact (by decide : (0 : Int) ≤ DEFAULT_VOTES)
      | some n =>
        have hmem : '-' ∉ (removeSpaces text).toList :=
          fun hc => hm (mem_of_mem_removeSpaces hc)
        exact pyInt?_nonneg hmem hp

/-- C2 (witness): the theorem instantiated at "1 234" and at "5 678". -/
theorem C2_witness : clean_number "1 234" = 1234 ∧ 0 ≤ clean_number "5 678" := by
  constructor
  · exact (C2_clean_number_total "1 234").2.2.1 1234 (by decide)
  · exact (C2_clean_number_total "5 678").2.2.2 (by decide)

/-- C5: the listing extraction returns exactly the stubs of the rows with a
present, non-empty code+link element and name element — one stub per valid
row, with the row's code, name and href resolved against the base URL, in
document order; deficient rows are skipped. -/
theorem C5_listing_extraction (join : String → String → String) (page : List LRow)
    (base_url : String) :
    scrape_municipalities_list join page base_url =
      (page.filter rowValidSpec).map (stubOfRowSpec join base_url) ∧
    (scrape_municipalities_list join page base_url).length =
      (page.filter rowValidSpec).length := by
  refine ⟨scrape_municipalities_eq join page base_url, ?_⟩
  rw [scrape_municipalities_eq, List.length_map]

/-- C6: a qualifying party-table row (≥ 3 cells, after the header) enters the
parties mapping exactly when its name cell is non-empty and differs from the
sentinel "-"; the binding of a party id is the entry of the last such row
(first in reverse document order). -/
theorem C6_party_row_filter (doc : DetailDoc) (k : String) :
    (dictFind? k (detailOf doc).parties =
      (((partyRows doc).reverse.filterMap rowEntry?).find?
        (fun kv => kv.1 = k)).map (fun kv => kv.2)) ∧
    ((dictFind? k (detailOf doc).parties).isSome ↔
      ∃ cells ∈ partyRows doc, ∃ nm v rest,
        cells = k :: nm :: v :: rest ∧ nm ≠ "" ∧ nm ≠ INVALID_PARTY_NAME) := by
  have h1 : dictFind? k (detailOf doc).parties =
      (((partyRows doc).reverse.filterMap rowEntry?).find?
        (fun kv => kv.1 = k)).map (fun kv => kv.2) :=
    dictFind?_scrape_parties doc k
  refine ⟨h1, ?_⟩
  rw [h1]
  have hiso : ∀ o : Option (String × PartyInfo),
      ((o.map (fun kv => kv.2)).isSome ↔ o.isSome) := by
    intro o
    cases o <;> simp
  rw [hiso, List.find?_isSome]
  constructor
  · rintro ⟨kv, hkv, hpred⟩
    have hk : kv.1 = k := by simpa using hpred
    obtain ⟨cells, hcells, hentry⟩ := List.mem_filterMap.1 hkv
    rw [List.mem_reverse] at hcells
    match cells, hentry with
    | a :: b :: c :: rest, hentry =>
      simp only [rowEntry?] at hentry
      split at hentry
      · rename_i hguard
        cases hentry
        exact ⟨a :: b :: c :: rest, hcells, b, c, rest, by rw [← hk], hguard.1, hguard.2⟩
      · cases hentry
  · rintro ⟨cells, hcells, nm, v, rest, hc, hnm1, hnm2⟩
    subst hc
    refine ⟨(k, { nazev := nm, hlasy := clean_number v }), ?_, by simp⟩
    exact List.mem_filterMap.2
      ⟨k :: nm :: v :: rest, List.mem_reverse.2 hcells, by simp [rowEntry?, hnm1, hnm2]⟩

/-- C7: the detail extraction returns `none` exactly on an absent document;
on a present document each summary field missing from the document defaults
to 0, and with no party rows the parties mapping is empty — never `none`. -/
theorem C7_detail_defaults (d : Option DetailDoc) :
    (scrape_one_place_details d = none ↔ d = none) ∧
    (∀ doc : DetailDoc, d = some doc →
      scrape_one_place_details d = some (detailOf doc) ∧
      (doc.registered_el = none → (detailOf doc).registered = 0) ∧
      (doc.envelopes_el = none → (detailOf doc).envelopes = 0) ∧
      (doc.valid_el = none → (detailOf doc).valid = 0) ∧
      (partyRows doc = [] → (detailOf doc).parties = [])) := by
  constructor
  · cases d with
    | none => simp [scrape_one_place_details]
    | some doc => simp [scrape_one_place_details]
  · intro doc hd
    subst hd
    refine ⟨rfl, ?_, ?_, ?_, ?_⟩
    · intro h
      unfold detailOf
      dsimp only
      rw [h]
      rfl
    · intro h
      unfold detailOf
      dsimp only
      rw [h]
      rfl
    · intro h
      unfold detailOf
      dsimp only
      rw [h]
      rfl
    · intro h
      show scrape_parties doc = []
      rw [scrape_parties_eq, h]
      rfl

/-- C7 (witness): the theorem instantiated at a present document with no
fields and no party tables. -/
theorem C7_witness :
    scrape_one_place_details (some exDetailDocEmpty) = some (detailOf exDetailDocEmpty) ∧
    (detailOf exDetailDocEmpty).registered = 0 ∧
    (detailOf exDetailDocEmpty).parties = [] := by
  have h := (C7_detail_defaults (some exDetailDocEmpty)).2 exDetailDocEmpty rfl
  exact ⟨h.1, h.2.1 rfl, h.2.2.2.2 rfl⟩

/-- C1 (counterexample): rows are keyed by party NAME, so when the distinct
party ids "1" and "2" share the name "X", the single surviving cell labelled
"X" holds party "2"'s count 7 although the record's count for party "1" is 5,
and the party column labels after the base columns are ["X", "X"] — not one
column per distinct party id. -/
theorem C1_counterexample :
    (export_to_csv [exMunicipalitySharedName] "out.csv" true).2 =
      Except.ok
        { sortedParties := [("1", "X"), ("2", "X")]
          columns := [CODE_COLUMN, LOCATION_COLUMN, REGISTERED_COLUMN,
            ENVELOPES_COLUMN, VALID_COLUMN, "X", "X"]
          rows := [[(CODE_COLUMN, Cell.str "N/A"), (LOCATION_COLUMN, Cell.str "N/A"),
                    (REGISTERED_COLUMN, Cell.str "N/A"), (ENVELOPES_COLUMN, Cell.str "N/A"),
                    (VALID_COLUMN, Cell.str "N/A"), ("X", Cell.int 7)]]
          writeSucceeded := true } ∧
    party_votes exMunicipalitySharedName "1" = 5 ∧
    dictFind? "X"
      ((exportRows (export_to_csv [exMunicipalitySharedName] "out.csv" true).2).getD 0 [])
      = some (Cell.int 7) := by
  refine ⟨by rfl, by rfl, by rfl⟩

/-- C1 (amended): for a NONEMPTY list of records in which distinct party ids
never share a party name (the column label), the flattening is
schema-complete — the sorted party columns carry pairwise-distinct party ids
whose set equals the union of all records' party ids, the export completes
with those columns and one row per record, and every record's row holds, at
each party's column, that record's vote count for the party (0 when absent).
On an empty record list the export instead raises in the column reorder. -/
theorem C1_flattening_schema_complete (ms : List Municipality) (fname : String) (w : Bool)
    (sorted : List (String × String))
    (hne : ms ≠ [])
    (hs : sorted_parties? (collect_all_parties ms) = Except.ok sorted)
    (hinj : (sorted.map Prod.snd).Nodup) :
    (sorted.map Prod.fst).Nodup ∧
    (∀ pid : String, pid ∈ sorted.map Prod.fst ↔
      ∃ m ∈ ms, ∃ ps, m.parties = some ps ∧ (dictFind? pid ps).isSome) ∧
    (export_to_csv ms fname w).2 =
      Except.ok
        { sortedParties := sorted
          columns := base_columns ++ sorted.map (fun p => p.2)
          rows := ms.map (csv_row sorted)
          writeSucceeded := w } ∧
    (∀ m ∈ ms, ∀ p ∈ sorted,
      dictFind? p.2 (csv_row sorted m) = some (Cell.int (party_votes m p.1))) := by
  have hperm := sorted_parties?_perm hs
  refine ⟨sorted_keys_nodup hs, ?_, ?_, ?_⟩
  · intro pid
    rw [(hperm.map Prod.fst).mem_iff, mem_keys_collect]
  · unfold export_to_csv
    rw [hs]
    dsimp only
    rw [if_neg (show ¬ms.map (csv_row sorted) = [] by simp [hne])]
  · intro m _ p hp
    exact dictFind?_csv_row_party hinj hp

/-- C1 (witness): the theorem instantiated on two well-formed records. -/
theorem C1_witness :
    dictFind? "PartyX" (csv_row [("1", "PartyX"), ("2", "PartyY")] exMunicipalityA) =
      some (Cell.int (party_votes exMunicipalityA "1")) :=
  (C1_flattening_schema_complete [exMunicipalityA, exMunicipalityB] "f.csv" true
      [("1", "PartyX"), ("2", "PartyY")] (by decide) (by rfl) (by decide)).2.2.2
    exMunicipalityA (by decide) ("1", "PartyX") (by decide)

/-- C4 (counterexample): with the party ids "01" and "1", both denoting the
integer 1, the sorted party columns are [("01","A"), ("1","B")] and the
adjacent pair has equal, not strictly increasing, integer values. -/
theorem C4_counterexample :
    sorted_parties? (collect_all_parties [exMunicipalityLeadingZero]) =
      Except.ok [("01", "A"), ("1", "B")] ∧
    pyIntVal "01" = 1 ∧ pyIntVal "1" = 1 ∧ ¬pyIntVal "01" < pyIntVal "1" := by
  refine ⟨by rfl, by rfl, by rfl, by decide⟩

/-- C4 (amended): the party columns are sorted with non-decreasing integer
values of their party ids, and the order is strictly increasing whenever
distinct collected party ids denote distinct integers. -/
theorem C4_sort_order (ms : List Municipality) (sorted : List (String × String))
    (hs : sorted_parties? (collect_all_parties ms) = Except.ok sorted) :
    List.Chain' (fun a b : String × String => pyIntVal a.1 ≤ pyIntVal b.1) sorted ∧
    ((∀ p ∈ sorted, ∀ q ∈ sorted, pyIntVal p.1 = pyIntVal q.1 → p.1 = q.1) →
      List.Chain' (fun a b : String × String => pyIntVal a.1 < pyIntVal b.1) sorted) := by
  have hle := sorted_pairwise_le hs
  refine ⟨hle.chain', ?_⟩
  intro hinj
  have hne : List.Pairwise (fun a b : String × String => a.1 ≠ b.1) sorted :=
    List.pairwise_map.1 (sorted_keys_nodup hs)
  have hcomb := hle.and hne
  refine (List.Pairwise.imp_of_mem ?_ hcomb).chain'
  intro a b ha hb hab
  rcases lt_or_eq_of_le hab.1 with h | h
  · exact h
  · exact absurd (hinj a ha b hb h) hab.2

/-- C4 (witness): the theorem instantiated on two well-formed records with
party ids 1 and 2. -/
theorem C4_witness :
    List.Chain' (fun a b : String × String => pyIntVal a.1 < pyIntVal b.1)
      [("1", "PartyX"), ("2", "PartyY")] :=
  (C4_sort_order [exMunicipalityA, exMunicipalityB] [("1", "PartyX"), ("2", "PartyY")]
      (by rfl)).2 (by decide)

/-- C3 (counterexample): in a run where the detail fetch fails for the first
of two municipalities, the failed municipality's exported registered cell is
the string sentinel "N/A", not the integer 0 the claim states. -/
theorem C3_counterexample :
    dictFind? REGISTERED_COLUMN
      ((finishedRows (main_run exEnvDetailFail "base" "f.csv").2).getD 0 []) =
      some (Cell.str DEFAULT_VALUE) ∧
    some (Cell.str DEFAULT_VALUE) ≠ some (Cell.int 0) := by
  refine ⟨by rfl, by decide⟩

/-- C3 (amended): a detail fetch failure for one municipality among several
does not abort the run — the run still finishes, exporting one row per
municipality; the failed municipality's record is left bare, it contributes
no party columns, its registered/envelopes/valid cells hold the string
sentinel "N/A" (not 0), and all its party cells are 0, while every other
municipality's row is computed from its own processed record against the same
party columns. -/
theorem C3_detail_failure_absorbed (env : Env) (url fname : String) (page : List LRow)
    (l1 l2 : List Municipality) (s : Municipality) (u : String)
    (sorted : List (String × String))
    (hpage : env.listing = some page)
    (hstubs : scrape_municipalities_list env.join page url = l1 ++ s :: l2)
    (hlink : s.link = some u)
    (hfail : env.detail u = none)
    (hsorted : sorted_parties? (collect_all_parties
        ((l1 ++ s :: l2).map (process_one env))) = Except.ok sorted)
    (hnames : ∀ p ∈ sorted, p.2 ∉ base_columns) :
    process_one env s = s ∧
    collect_all_parties ((l1 ++ s :: l2).map (process_one env)) =
      collect_all_parties ((l1 ++ l2).map (process_one env)) ∧
    (main_run env url fname).2 = RunOutcome.finished
      { sortedParties := sorted
        columns := base_columns ++ sorted.map (fun p => p.2)
        rows := (l1.map (process_one env)).map (csv_row sorted) ++
          csv_row sorted s :: (l2.map (process_one env)).map (csv_row sorted)
        writeSucceeded := env.writeOk } ∧
    dictFind? REGISTERED_COLUMN (csv_row sorted s) = some (Cell.str DEFAULT_VALUE) ∧
    dictFind? ENVELOPES_COLUMN (csv_row sorted s) = some (Cell.str DEFAULT_VALUE) ∧
    dictFind? VALID_COLUMN (csv_row sorted s) = some (Cell.str DEFAULT_VALUE) ∧
    (∀ p ∈ sorted, dictFind? p.2 (csv_row sorted s) = some (Cell.int 0)) := by
  have hmem : s ∈ scrape_municipalities_list env.join page url := by
    rw [hstubs]
    exact List.mem_append_right _ (List.mem_cons_self _ _)
  obtain ⟨hreg, henv, hval, hpart, -⟩ := mem_scrape_shape hmem
  have h1 : process_one env s = s := process_one_fail hlink hfail
  have hmaps : (l1 ++ s :: l2).map (process_one env) =
      l1.map (process_one env) ++ s :: l2.map (process_one env) := by
    rw [List.map_append, List.map_cons, h1]
  refine ⟨h1, ?_, ?_, ?_, ?_, ?_, ?_⟩
  · rw [hmaps, List.map_append]
    exact collect_skip_middle _ _ s hpart
  · have hne : scrape_municipalities_list env.join page url ≠ [] := by
      rw [hstubs]
      intro he
      exact absurd (List.append_eq_nil.1 he).2 (List.cons_ne_nil _ _)
    have hsorted' : sorted_parties? (collect_all_parties
        ((scrape_municipalities_list env.join page url).map (process_one env))) =
        Except.ok sorted := by
      rw [hstubs]
      exact hsorted
    have h := main_run_finished_eq env url fname page sorted hpage hne hsorted'
    rw [h]
    have : ((scrape_municipalities_list env.join page url).map
        (process_one env)).map (csv_row sorted) =
        (l1.map (process_one env)).map (csv_row sorted) ++
          csv_row sorted s :: (l2.map (process_one env)).map (csv_row sorted) := by
      rw [hstubs, hmaps, List.map_append, List.map_cons]
    rw [this]
  · rw [dictFind?_csv_row_of_no_party_named
      (fun p hp e => hnames p hp (e ▸ (by decide : REGISTERED_COLUMN ∈ base_columns))),
      dictFind?_csv_row_nil_registered, municipalityGet_registered_none hreg]
  · rw [dictFind?_csv_row_of_no_party_named
      (fun p hp e => hnames p hp (e ▸ (by decide : ENVELOPES_COLUMN ∈ base_columns))),
      dictFind?_csv_row_nil_envelopes, municipalityGet_envelopes_none henv]
  · rw [dictFind?_csv_row_of_no_party_named
      (fun p hp e => hnames p hp (e ▸ (by decide : VALID_COLUMN ∈ base_columns))),
      dictFind?_csv_row_nil_valid, municipalityGet_valid_none hval]
  · intro p hp
    exact dictFind?_csv_row_zero hpart hp

/-- C3 (witness): the theorem instantiated on the two-municipality run where
the first detail fetch fails. -/
theorem C3_witness :
    dictFind? REGISTERED_COLUMN (csv_row [("7", "PartyZ")] exStubA) =
      some (Cell.str DEFAULT_VALUE) ∧
    (main_run exEnvDetailFail "base" "f.csv").2 ≠ RunOutcome.listingFailed := by
  have h := C3_detail_failure_absorbed exEnvDetailFail "base" "f.csv" exPage
    [] [exStubB] exStubA "base/h1" [("7", "PartyZ")]
    rfl (by rfl) rfl rfl (by rfl) (by decide)
  refine ⟨h.2.2.2.1, ?_⟩
  rw [h.2.2.1]
  intro he
  cases he

/-- C8: when the listing page parses but yields zero municipality stubs, the
run stops with the no-municipalities outcome: its trace is just the listing
fetch and two messages — it contains no detail fetch and no write. -/
theorem C8_empty_listing (env : Env) (url filename : String) (page : List LRow)
    (hpage : env.listing = some page)
    (hempty : scrape_municipalities_list env.join page url = []) :
    (main_run env url filename).2 = RunOutcome.noMunicipalities ∧
    (main_run env url filename).1 =
      [Event.fetchListing url, Event.message (found_msg 0), Event.message no_munis_msg] ∧
    (∀ e ∈ (main_run env url filename).1, isWriteEvent e = false) ∧
    (∀ e ∈ (main_run env url filename).1, ∀ u : String, e ≠ Event.fetchDetail u) := by
  have h := main_run_no_munis env url filename page hpage hempty
  rw [h]
  refine ⟨rfl, rfl, ?_, ?_⟩
  · intro e he
    rcases List.mem_cons.1 he with h1 | he
    · rw [h1]; rfl
    rcases List.mem_cons.1 he with h1 | he
    · rw [h1]; rfl
    rcases List.mem_cons.1 he with h1 | he
    · rw [h1]; rfl
    · cases he
  · intro e he u'
    rcases List.mem_cons.1 he with h1 | he
    · rw [h1]; intro hc; cases hc
    rcases List.mem_cons.1 he with h1 | he
    · rw [h1]; intro hc; cases hc
    rcases List.mem_cons.1 he with h1 | he
    · rw [h1]; intro hc; cases hc
    · cases he

/-- C8 (witness): the theorem instantiated on a listing page whose rows are
all malformed. -/
theorem C8_witness :
    (main_run exEnvMalformed "base" "f.csv").2 = RunOutcome.noMunicipalities :=
  (C8_empty_listing exEnvMalformed "base" "f.csv" exPageMalformed rfl (by rfl)).1

/-- C9: when the CSV write fails, the run reports the write diagnostic,
attempts exactly one write (no retry), records the export as not written,
raises nothing, and still ends with the completion message. -/
theorem C9_write_failure (env : Env) (url filename : String) (page : List LRow)
    (sorted : List (String × String))
    (hpage : env.listing = some page)
    (hne : scrape_municipalities_list env.join page url ≠ [])
    (hsorted : sorted_parties? (collect_all_parties
        ((scrape_municipalities_list env.join page url).map (process_one env))) =
      Except.ok sorted)
    (hw : env.writeOk = false) :
    Event.message write_fail_msg ∈ (main_run env url filename).1 ∧
    (main_run env url filename).1.filter isWriteEvent = [Event.writeCsv filename] ∧
    (main_run env url filename).2 = RunOutcome.finished
      { sortedParties := sorted
        columns := base_columns ++ sorted.map (fun p => p.2)
        rows := ((scrape_municipalities_list env.join page url).map
          (process_one env)).map (csv_row sorted)
        writeSucceeded := false } ∧
    (main_run env url filename).1.getLast? = some (Event.message done_msg) := by
  have h := main_run_finished_eq env url filename page sorted hpage hne hsorted
  rw [h, hw]
  refine ⟨?_, ?_, rfl, ?_⟩
  · simp
  · have hmapf : ((scrape_municipalities_list env.join page url).map
        (fun m => Event.fetchDetail (m.link.getD ""))).filter isWriteEvent = [] := by
      rw [List.filter_eq_nil_iff]
      intro e he
      obtain ⟨m, -, hm⟩ := List.mem_map.1 he
      rw [← hm]
      simp [isWriteEvent]
    simp only [List.filter_append, hmapf, List.filter_cons, List.filter_nil]
    rfl
  · rw [List.getLast?_concat]

/-- C9 (witness): the theorem instantiated on a run whose write fails. -/
theorem C9_witness :
    Event.message write_fail_msg ∈ (main_run exEnvWriteFail "base" "f.csv").1 ∧
    (main_run exEnvWriteFail "base" "f.csv").1.filter isWriteEvent =
      [Event.writeCsv "f.csv"] := by
  have h := C9_write_failure exEnvWriteFail "base" "f.csv" exPage [("7", "PartyZ")]
    rfl (by decide) (by rfl) rfl
  exact ⟨h.1, h.2.1⟩

/-- C10: the sort step converts every collected party id with an unguarded
`int()` — when all party ids occurring in the records are valid integer
literals this conversion never fails (the sort step completes, and for a
nonempty collection the whole export then returns its result; an empty
collection instead crashes later, in the column reorder), while a record with
the non-numeric party id "x" makes `export_to_csv` raise before any write:
its trace holds only the introductory message, no write event. -/
theorem C10_unguarded_int_conversion :
    (∀ ms : List Municipality,
      (∀ m ∈ ms, ∀ ps : PartyDict, m.parties = some ps →
        ∀ kv ∈ ps, (pyInt? kv.1).isSome) →
      ∃ sorted, sorted_parties? (collect_all_parties ms) = Except.ok sorted) ∧
    (∀ (ms : List Municipality) (fname : String) (w : Bool), ms ≠ [] →
      (∀ m ∈ ms, ∀ ps : PartyDict, m.parties = some ps →
        ∀ kv ∈ ps, (pyInt? kv.1).isSome) →
      ∃ out, (export_to_csv ms fname w).2 = Except.ok out) ∧
    (export_to_csv [exMunicipalityBadId] "f.csv" true).2 = Except.error () ∧
    (export_to_csv [exMunicipalityBadId] "f.csv" true).1 =
      [Event.message (export_msg "f.csv")] := by
  have hsort : ∀ ms : List Municipality,
      (∀ m ∈ ms, ∀ ps : PartyDict, m.parties = some ps →
        ∀ kv ∈ ps, (pyInt? kv.1).isSome) →
      ∃ sorted, sorted_parties? (collect_all_parties ms) = Except.ok sorted := by
    intro ms hvalid
    have hids : ∀ e ∈ collect_all_parties ms, (pyInt? e.1).isSome := by
      intro e he
      have hk : e.1 ∈ (collect_all_parties ms).map Prod.fst :=
        List.mem_map_of_mem Prod.fst he
      obtain ⟨m, hm, ps, hps, hfind⟩ := (mem_keys_collect ms e.1).1 hk
      obtain ⟨info, hinfo⟩ := Option.isSome_iff_exists.1 hfind
      exact hvalid m hm ps hps (e.1, info) (mem_of_dictFind?_eq_some hinfo)
    obtain ⟨keyed, hk⟩ := buildKeyed_isSome _ hids
    exact ⟨_, by unfold sorted_parties?; rw [hk]⟩
  refine ⟨hsort, ?_, by rfl, by rfl⟩
  intro ms fname w hne hvalid
  obtain ⟨sorted, hsorted⟩ := hsort ms hvalid
  unfold export_to_csv
  rw [hsorted]
  dsimp only
  rw [if_neg (show ¬ms.map (csv_row sorted) = [] by simp [hne])]
  exact ⟨_, rfl⟩

/-- C10 (witness): the nonempty success half instantiated on a well-formed
record. -/
theorem C10_witness :
    ∃ out, (export_to_csv [exMunicipalityA] "f.csv" true).2 = Except.ok out := by
  refine C10_unguarded_int_conversion.2.1 [exMunicipalityA] "f.csv" true (by decide) ?_
  intro m hm ps hps kv hkv
  rw [List.mem_singleton] at hm
  subst hm
  have hpA : exMunicipalityA.parties = some [("1", { nazev := "PartyX", hlasy := 100 }),
      ("2", { nazev := "PartyY", hlasy := 50 })] := rfl
  rw [hpA] at hps
  injection hps with h
  subst h
  rcases List.mem_cons.1 hkv with h | h
  · subst h; decide
  rcases List.mem_cons.1 h with h' | h'
  · subst h'; decide
  · cases h'

end Volby
